import Mathlib

/-!
Verification development for the payload-gatekeeper permission plugin.

The definitions below are a shallow embedding of the plugin core:
the wildcard permission matcher (`src/utils/checkPermission.ts`),
the role-assignment guard, the permission-check role resolver,
the role synchronization engine (`src/utils/syncRoles.ts`),
the roles-collection beforeChange validation hook, and the
per-operation access wrapper (`src/access/createAccessWrapper.ts`).

Modelling conventions:
* JavaScript strings are Lean `String`s; dot-delimited permission tokens
  are handled on `String.toList` character lists.
* `undefined`/`null` become `Option`; JavaScript truthiness is made
  explicit where the source relies on it.
* The compiled wildcard regex `^p₁.*p₂$` (dots escaped, `*` mapped to
  `.*`) is modelled by `wildMatch`, where a `*` in the pattern matches an
  arbitrary character sequence.  (JavaScript `.` does not match line
  terminators; permission strings never contain them, so this boundary is
  irrelevant here.)  The regex cache of the source is pure memoisation
  and has no observable semantics, so it is not modelled.
-/

namespace Gatekeeper

/-- Matcher for the regex compiled by `getPermissionRegex`: every
character of the permission pattern is literal except `*`, which was
replaced by `.*` and hence matches an arbitrary character sequence.  The
regex is anchored (`^...$`), so the whole `required` string must be
consumed.  A `*` consuming an arbitrary prefix of the string is rendered
as a match of the remaining pattern against some suffix of the string. -/
def wildMatch : List Char → List Char → Bool
  | [], s => s.isEmpty
  | p :: ps, s =>
    if p = '*' then s.tails.any fun t => wildMatch ps t
    else
      match s with
      | [] => false
      | c :: s => p == c && wildMatch ps s

/-- The fast-path test of `hasPermission`:
`permission.endsWith('.*') && permission.indexOf('*') === permission.length - 1`
(the single `*` of the pattern is its final character, preceded by a dot). -/
def fastTailWildcard (cs : List Char) : Bool :=
  List.isSuffixOf ['.', '*'] cs && cs.indexOf '*' == cs.length - 1

/-- The body of the wildcard loop of `hasPermission` for one granted
entry: skip entries without `*`, prefix-test the `"<prefix>.*"` fast
path, otherwise test the compiled pattern. -/
def permEntryMatches (permission : String) (required : List Char) : Bool :=
  if !permission.toList.contains '*' then false
  else if fastTailWildcard permission.toList then
    -- permission.slice(0, -1) drops the asterisk, keeping the dot
    List.isPrefixOf permission.toList.dropLast required
  else wildMatch permission.toList required

/-- `hasPermission(userPermissions, requiredPermission)` from
`src/utils/checkPermission.ts` lines 35–77.  `none` models an
`undefined` permissions array; the `!userPermissions?.length` guard
rejects both `undefined` and `[]`. -/
def hasPermission (userPermissions : Option (List String))
    (requiredPermission : String) : Bool :=
  match userPermissions with
  | none => false
  | some [] => false
  | some perms =>
    -- PERMISSIONS.ALL = '*'
    if perms.contains "*" then true
    else if perms.contains requiredPermission then true
    else perms.any fun permission =>
      permEntryMatches permission requiredPermission.toList

/-- `isPermissionCovered` from `src/utils/checkPermission.ts` lines 84–93. -/
def isPermissionCovered (permission : String)
    (userPermissions : List String) : Bool :=
  if userPermissions.isEmpty then false
  else hasPermission (some userPermissions) permission

/-- The `targetRole` argument of `canAssignRole`:
`{ protected?: boolean; permissions?: string[]; active?: boolean }`.
(`protected` is a Lean keyword, hence the field name `protectedFlag`.) -/
structure TargetRole where
  protectedFlag : Option Bool := none
  permissions : Option (List String) := none
  active : Option Bool := none
deriving DecidableEq, Repr

/-- `canAssignRole` from `src/utils/checkPermission.ts` lines 99–113.
`targetRole.protected` is truthy exactly when the flag is `some true`. -/
def canAssignRole (userPermissions : List String)
    (targetRole : TargetRole) : Bool :=
  if targetRole.protectedFlag == some true
      && !userPermissions.contains "*" then false
  else
    (targetRole.permissions.getD []).all fun perm =>
      isPermissionCovered perm userPermissions

example : hasPermission (some ["posts.*"]) "posts.read" = true := by decide
example : hasPermission (some ["posts.*"]) "users.read" = false := by decide
example : hasPermission (some ["posts.*"]) "postsx.read" = false := by decide
example : hasPermission (some ["*.read"]) "posts.read" = true := by decide
example : hasPermission (some ["*.read"]) "posts.write" = false := by decide
example : hasPermission (some ["users.*"]) "users.a.b" = true := by decide
example : hasPermission (some ["a.*.c"]) "a.b.x.c" = true := by decide
example : canAssignRole ["posts.*"] { permissions := some ["posts.read", "posts.write"] } = true := by decide
example : canAssignRole ["posts.*", "users.*"] { protectedFlag := some true, permissions := some [] } = false := by decide

/-! ### The segment-for-segment matcher described by the specification

The spec states that a `*` occupying one dot-delimited position matches
exactly one segment at that position.  The following definitions follow
those words (not the source); they exist solely to compare the spec
against `hasPermission`. -/

/-- Split a character list at every `'.'` (purely structural dots, no
escaping, as the spec stipulates). -/
def splitSegments (cs : List Char) : List (List Char) :=
  cs.foldr
    (fun c acc =>
      if c = '.' then [] :: acc
      else
        match acc with
        | a :: rest => (c :: a) :: rest
        | [] => [[c]])
    [[]]

/-- Positional segment matching per the spec: a `*` segment matches
exactly one segment of the required permission; any other segment must
be equal; the segment counts must agree. -/
def segmentsMatch : List (List Char) → List (List Char) → Bool
  | [], [] => true
  | g :: gs, r :: rs => (g == ['*'] || g == r) && segmentsMatch gs rs
  | _, _ => false

/-- The matching rule exactly as the claim words it: literal `*` grant,
exact membership, or a wildcard entry matching positionally
segment-for-segment. -/
def specSegmentHasPermission (granted : List String) (required : String) : Bool :=
  granted.contains "*" || granted.contains required ||
    granted.any fun g =>
      g.toList.contains '*' &&
      segmentsMatch (splitSegments g.toList) (splitSegments required.toList)

/-! ### Characterising the wildcard loop of `hasPermission` -/

lemma wildMatch_nil (r : List Char) : wildMatch [] r = r.isEmpty := rfl

lemma wildMatch_star_singleton (r : List Char) : wildMatch ['*'] r = true := by
  simp only [wildMatch, if_pos, List.any_eq_true]
  exact ⟨[], (List.mem_tails [] r).mpr List.nil_suffix, rfl⟩

/-- A pattern consisting of a literal prefix followed by a single final
`*` matches exactly the strings extending that prefix. -/
lemma wildMatch_append_star (ys : List Char) (h : '*' ∉ ys) (r : List Char) :
    wildMatch (ys ++ ['*']) r = List.isPrefixOf ys r := by
  induction ys generalizing r with
  | nil => simpa [List.isPrefixOf] using wildMatch_star_singleton r
  | cons y ys ih =>
    have hy : y ≠ '*' := fun hcontra => h (hcontra ▸ List.mem_cons_self y ys)
    have h' : '*' ∉ ys := fun hmem => h (List.mem_cons_of_mem y hmem)
    cases r with
    | nil => simp [wildMatch, hy, List.isPrefixOf]
    | cons c r => simp [wildMatch, hy, List.isPrefixOf, ih h']

lemma indexOf_append_left {a : Char} {ys zs : List Char} (h : a ∈ ys) :
    (ys ++ zs).indexOf a = ys.indexOf a := by
  induction ys with
  | nil => simp at h
  | cons y ys ih =>
    rw [List.cons_append, List.indexOf_cons, List.indexOf_cons]
    cases hya : (y == a)
    · have ha : a ∈ ys := by
        rcases List.mem_cons.mp h with h1 | h1
        · rw [h1] at hya; simp at hya
        · exact h1
      simp [hya, ih ha]
    · simp [hya]

/-- A pattern passing the fast-path test is a star-free prefix followed
by `".*"`. -/
lemma fastTail_decomp {cs : List Char} (h : fastTailWildcard cs = true) :
    ∃ ys, cs = ys ++ ['*'] ∧ '*' ∉ ys := by
  rw [fastTailWildcard, Bool.and_eq_true] at h
  obtain ⟨h1, h2⟩ := h
  rw [beq_iff_eq] at h2
  obtain ⟨pre, hpre⟩ := List.isSuffixOf_iff_suffix.mp h1
  refine ⟨pre ++ ['.'], by rw [← hpre]; simp, fun hmem => ?_⟩
  have hcs : cs = (pre ++ ['.']) ++ ['*'] := by rw [← hpre]; simp
  have hlen : cs.length - 1 = (pre ++ ['.']).length := by
    rw [hcs]; simp
  have hlt : cs.indexOf '*' < (pre ++ ['.']).length := by
    rw [hcs, indexOf_append_left hmem]
    exact List.indexOf_lt_length.mpr hmem
  omega


/-- The per-entry wildcard loop of `hasPermission` is exactly the
compiled-pattern match, guarded by the entry containing a `*`: the fast
path coincides with the regex it short-cuts. -/
lemma permEntryMatches_eq (g : String) (r : List Char) :
    permEntryMatches g r = (g.toList.contains '*' && wildMatch g.toList r) := by
  unfold permEntryMatches
  cases hc : g.toList.contains '*' with
  | false => simp
  | true =>
    simp only [Bool.not_true, Bool.false_eq_true, if_false, Bool.true_and]
    cases hf : fastTailWildcard g.toList with
    | false => simp
    | true =>
      obtain ⟨ys, hcs, hns⟩ := fastTail_decomp hf
      simp only [if_true]
      rw [hcs, List.dropLast_concat, wildMatch_append_star ys hns]

theorem hasPermission_eq_wild (G : List String) (p : String) :
    hasPermission (some G) p =
      (G.contains "*" || (G.contains p ||
        G.any fun g => g.toList.contains '*' && wildMatch g.toList p.toList)) := by
  have hbody : (fun g => permEntryMatches g p.toList)
      = fun g => g.toList.contains '*' && wildMatch g.toList p.toList := by
    funext g; exact permEntryMatches_eq g p.toList
  cases G with
  | nil => simp [hasPermission]
  | cons g gs =>
    show (if (g :: gs).contains "*" then true
          else if (g :: gs).contains p then true
          else (g :: gs).any fun perm => permEntryMatches perm p.toList) = _
    cases h1 : (g :: gs).contains "*" with
    | true => simp
    | false =>
      cases h2 : (g :: gs).contains p with
      | true => simp
      | false => rw [hbody]; simp

/-- Claim C1, counterexample: the grant `users.*` covers the permission
`users.a.b` under `hasPermission`, although under the claimed
segment-for-segment rule the single wildcard position would have to
match the two segments `a.b`, so the claimed rule rejects it.  The
claimed equivalence therefore fails at this input. -/
theorem claim1_counterexample :
    hasPermission (some ["users.*"]) "users.a.b" = true ∧
    specSegmentHasPermission ["users.*"] "users.a.b" = false := by
  decide

/-- Claim C1 (amended): `hasPermission G p` is true iff `G` contains the
literal token `*`, or contains `p` exactly, or some entry of `G`
containing a `*` matches `p` when each `*` matches an arbitrary
character sequence (possibly empty, possibly spanning several
dot-delimited segments); it is false whenever the grant list is absent
or empty; and segment boundaries are respected for a trailing wildcard
(`users.*` does not cover `usersx.read`). -/
theorem claim1_matcher_characterisation :
    (∀ p, hasPermission none p = false) ∧
    (∀ p, hasPermission (some []) p = false) ∧
    (∀ G p, hasPermission (some G) p =
      (G.contains "*" || (G.contains p ||
        G.any fun g => g.toList.contains '*' && wildMatch g.toList p.toList))) ∧
    hasPermission (some ["users.*"]) "usersx.read" = false :=
  ⟨fun _ => rfl, fun _ => rfl, hasPermission_eq_wild, by decide⟩

/-! ### Claim C2: the role-assignment guard -/

lemma isPermissionCovered_eq (p : String) (A : List String) :
    isPermissionCovered p A = hasPermission (some A) p := by
  cases A <;> rfl

/-- Claim C2: for a protected target role, `canAssignRole` grants only
to holders of the literal `*`; for a non-protected target it grants iff
every target permission is covered by the actor grants under the
matcher; a non-protected target with empty or absent permissions is
always assignable. -/
theorem claim2_canAssignRole (A : List String) (T : TargetRole) :
    (T.protectedFlag = some true → canAssignRole A T = true →
      A.contains "*" = true) ∧
    (T.protectedFlag ≠ some true →
      canAssignRole A T =
        (T.permissions.getD []).all fun p => hasPermission (some A) p) ∧
    (T.protectedFlag ≠ some true → T.permissions.getD [] = [] →
      canAssignRole A T = true) := by
  have hbody : (fun perm => isPermissionCovered perm A)
      = fun p => hasPermission (some A) p := by
    funext p; exact isPermissionCovered_eq p A
  have hmain : T.protectedFlag ≠ some true →
      canAssignRole A T =
        (T.permissions.getD []).all fun p => hasPermission (some A) p := by
    intro hp
    have hcond : (T.protectedFlag == some true && !A.contains "*") = false := by
      have : (T.protectedFlag == some true) = false := by
        simp [hp]
      simp [this]
    rw [canAssignRole, hcond, hbody]
    simp
  refine ⟨fun hp hc => ?_, hmain, fun hp he => by rw [hmain hp, he]; rfl⟩
  cases hw : A.contains "*" with
  | true => rfl
  | false =>
    rw [canAssignRole, hp, hw] at hc
    simp at hc

/-- Concrete instantiation of `claim2_canAssignRole`. -/
theorem claim2_witness :
    canAssignRole ["posts.*"]
        { protectedFlag := none, permissions := some ["posts.read"] } =
      (["posts.read"].all fun p => hasPermission (some ["posts.*"]) p) :=
  (claim2_canAssignRole ["posts.*"]
    { protectedFlag := none, permissions := some ["posts.read"] }).2.1
    (by decide)

/-! ### JavaScript-value modelling for `checkPermission`
(`src/utils/checkPermission.ts` lines 120–191) -/

/-- A JavaScript id value (`string | number`). -/
inductive JsId where
  | num (n : Int)
  | str (s : String)
deriving DecidableEq, Repr

/-- JavaScript truthiness of an id (`0` and the empty string are falsy). -/
def JsId.truthy : JsId → Bool
  | .num n => n != 0
  | .str s => s != ""

/-- JavaScript strict equality on ids (`1 === '1'` is false: no type
coercion). -/
def JsId.strictEq : JsId → JsId → Bool
  | .num a, .num b => a == b
  | .str a, .str b => a == b
  | _, _ => false

/-- A populated role object as consumed by `checkPermission` and the
roles beforeChange hook.  `'active' in role`, `'permissions' in role`
and `'id' in user.role` are key-presence tests, hence `Option` fields. -/
structure RoleDoc where
  id : Option JsId := none
  active : Option Bool := none
  permissions : Option (List String) := none
deriving DecidableEq, Repr

/-- The `userRole` argument of `checkPermission`: a raw id (string or
number) or a populated role object; `null`/`undefined` are modelled by
the surrounding `Option`. -/
inductive JsRoleRef where
  | num (n : Int)
  | str (s : String)
  | obj (r : RoleDoc)
deriving DecidableEq, Repr

/-- JavaScript truthiness of a role reference: objects are always
truthy, `0` and the empty string are falsy. -/
def JsRoleRef.truthy : JsRoleRef → Bool
  | .num n => n != 0
  | .str s => s != ""
  | .obj _ => true

/-- The subset of `GatekeeperOptions` consumed by the permission core:
`disablePublicRole`, `publicRolePermissions`, and (for the roles
beforeChange hook) `skipPermissionChecks`, resolved to its boolean
value. -/
structure GatekeeperOptions where
  disablePublicRole : Bool := false
  publicRolePermissions : Option (List String) := none
  skipPermissionChecks : Bool := false
deriving DecidableEq, Repr

/-- `userId && (userId === 1 || userId === '1')`: the reserved
first-user sentinel check. -/
def isFirstUser (userId : Option JsId) : Bool :=
  match userId with
  | some i => i.truthy && (i == .num 1 || i == .str "1")
  | none => false

/-- `!userId && !userRole`: the anonymous/public-caller test. -/
def publicCaller (userId : Option JsId) (userRole : Option JsRoleRef) : Bool :=
  !(userId.elim false JsId.truthy) && !(userRole.elim false JsRoleRef.truthy)

/-- The shared tail of `checkPermission` once a role object is in hand:
`if (!role || ('active' in role && !role.active)) return false`, then
match the required permission against `'permissions' in role ?
role.permissions : []`. -/
def checkRoleDoc (role : RoleDoc) (permission : String) : Bool :=
  if role.active == some false then false
  else hasPermission (some (role.permissions.getD [])) permission

/-- `checkPermission` from `src/utils/checkPermission.ts` lines
120–191.  The asynchronous `payload.findByID` collaborator is the
`lookupRole` parameter; `.error ()` models a thrown lookup error (role
not found or transport failure), which the source catches, logs and
converts to a denial.  The embedding is total, mirroring the outer
`try/catch` that turns any failure into `false`. -/
def checkPermission (lookupRole : String → Except Unit (Option RoleDoc))
    (userRole : Option JsRoleRef) (permission : String)
    (userId : Option JsId) (options : Option GatekeeperOptions) : Bool :=
  -- Special case: first user (ID 1) always has all permissions
  if isFirstUser userId then true
  -- Public user (no userId and no role): use public role permissions
  else if publicCaller userId userRole then
    if options.elim false GatekeeperOptions.disablePublicRole then false
    else
      hasPermission
        (some (match options with
               | some o => o.publicRolePermissions.getD ["*.read"]
               | none => ["*.read"]))
        permission
  else
    match userRole with
    -- No role = no permissions (role ID 0 is allowed, null/undefined not)
    | none => false
    -- Role already populated
    | some (.obj r) => checkRoleDoc r permission
    -- Role is an ID: fall back to the lookup collaborator
    | some (.num n) =>
      match lookupRole (toString n) with
      | .error _ => false
      | .ok none => false
      | .ok (some r) => checkRoleDoc r permission
    | some (.str s) =>
      match lookupRole s with
      | .error _ => false
      | .ok none => false
      | .ok (some r) => checkRoleDoc r permission

lemma publicCaller_obj (uid : Option JsId) (r : RoleDoc) :
    publicCaller uid (some (.obj r)) = false := by
  simp [publicCaller, JsRoleRef.truthy]

/-- Claim C4: the special identities of `checkPermission`: the
first-user sentinel `1` (numeric or string) is granted unconditionally;
an anonymous caller (no id, no role) is evaluated against the configured
public permissions (default `*.read`) unless public access is disabled,
in which case it is denied; an identified caller without a role is
denied. -/
theorem claim4_checkPermission_identities :
    (∀ lookupRole roleRef p opts,
      checkPermission lookupRole roleRef p (some (.num 1)) opts = true) ∧
    (∀ lookupRole roleRef p opts,
      checkPermission lookupRole roleRef p (some (.str "1")) opts = true) ∧
    (∀ lookupRole p o, o.disablePublicRole = true →
      checkPermission lookupRole none p none (some o) = false) ∧
    (∀ lookupRole p o, o.disablePublicRole = false →
      checkPermission lookupRole none p none (some o) =
        hasPermission (some (o.publicRolePermissions.getD ["*.read"])) p) ∧
    (∀ lookupRole p,
      checkPermission lookupRole none p none none =
        hasPermission (some ["*.read"]) p) ∧
    (∀ lookupRole p opts i, JsId.truthy i = true →
      i ≠ .num 1 → i ≠ .str "1" →
      checkPermission lookupRole none p (some i) opts = false) := by
  refine ⟨fun _ _ _ _ => rfl, fun _ _ _ _ => rfl,
    fun lookupRole p o h => ?_, fun lookupRole p o h => ?_,
    fun _ _ => rfl, fun lookupRole p opts i ht h1 h2 => ?_⟩
  · simp [checkPermission, isFirstUser, publicCaller, h]
  · simp [checkPermission, isFirstUser, publicCaller, h]
  · have e1 : (i == JsId.num 1) = false := beq_eq_false_iff_ne.mpr h1
    have e2 : (i == JsId.str "1") = false := beq_eq_false_iff_ne.mpr h2
    simp [checkPermission, isFirstUser, publicCaller, ht, e1, e2]

/-- Concrete instantiation of `claim4_checkPermission_identities`: an
authenticated non-sentinel actor with no role is denied. -/
theorem claim4_witness :
    checkPermission (fun _ => .error ()) none "posts.read"
      (some (.num 2)) none = false :=
  claim4_checkPermission_identities.2.2.2.2.2
    (fun _ => .error ()) "posts.read" none (.num 2)
    (by decide) (by decide) (by decide)

/-- Claim C5: every failure path of `checkPermission` denies instead of
raising: a lookup failure (thrown or not-found), a missing resolved
role, and an inactive role all produce `false`.  (The embedding is a
total function, which is the rendering of "never throws"; the logged
warning is I/O outside the embedding.) -/
theorem claim5_checkPermission_failure_paths :
    (∀ lookupRole p uid opts s, isFirstUser uid = false →
      publicCaller uid (some (.str s)) = false →
      lookupRole s = .error () →
      checkPermission lookupRole (some (.str s)) p uid opts = false) ∧
    (∀ lookupRole p uid opts (n : Int), isFirstUser uid = false →
      publicCaller uid (some (.num n)) = false →
      lookupRole (toString n) = .error () →
      checkPermission lookupRole (some (.num n)) p uid opts = false) ∧
    (∀ lookupRole p uid opts s, isFirstUser uid = false →
      publicCaller uid (some (.str s)) = false →
      lookupRole s = .ok none →
      checkPermission lookupRole (some (.str s)) p uid opts = false) ∧
    (∀ lookupRole p uid opts r, isFirstUser uid = false →
      r.active = some false →
      checkPermission lookupRole (some (.obj r)) p uid opts = false) ∧
    (∀ lookupRole p uid opts s r, isFirstUser uid = false →
      publicCaller uid (some (.str s)) = false →
      lookupRole s = .ok (some r) → r.active = some false →
      checkPermission lookupRole (some (.str s)) p uid opts = false) := by
  refine ⟨fun lookupRole p uid opts s hf hp he => ?_,
    fun lookupRole p uid opts n hf hp he => ?_,
    fun lookupRole p uid opts s hf hp he => ?_,
    fun lookupRole p uid opts r hf ha => ?_,
    fun lookupRole p uid opts s r hf hp he ha => ?_⟩
  · simp [checkPermission, hf, hp, he]
  · simp [checkPermission, hf, hp, he]
  · simp [checkPermission, hf, hp, he]
  · simp [checkPermission, hf, publicCaller_obj, checkRoleDoc, ha]
  · simp [checkPermission, hf, hp, he, checkRoleDoc, ha]

/-- Concrete instantiation of `claim5_checkPermission_failure_paths`: a
thrown role lookup is converted into a denial. -/
theorem claim5_witness :
    checkPermission (fun _ => .error ()) (some (.str "5")) "posts.read"
      (some (.num 2)) none = false :=
  claim5_checkPermission_failure_paths.1
    (fun _ => .error ()) "posts.read" (some (.num 2)) none "5"
    (by decide) (by decide) rfl

/-! ### The per-operation access wrapper
(`src/access/createAccessWrapper.ts` lines 8–59) -/

/-- The four wrapped CRUD operations. -/
inductive Operation where
  | create
  | read
  | update
  | delete
deriving DecidableEq, Repr

/-- The operation's name as interpolated into
`` `${collectionSlug}.${operation}` ``. -/
def Operation.asString : Operation → String
  | .create => "create"
  | .read => "read"
  | .update => "update"
  | .delete => "delete"

/-- What a host access function returns: a boolean, or an opaque query
constraint understood by the persistence layer (modelled as its
entries). -/
inductive AccessResult where
  | bool (b : Bool)
  | query (q : List (String × String))
deriving DecidableEq, Repr

/-- The authenticated user on the request, as read by the wrapper
(`args.req.user.role`, `args.req.user.id`). -/
structure ReqUser where
  id : JsId
  role : Option JsRoleRef := none
deriving DecidableEq, Repr

/-- The access-function argument object (only `req.user` and the
payload handle, i.e. the lookup collaborator, are consumed). -/
structure AccessArgs where
  user : Option ReqUser := none
deriving DecidableEq, Repr

/-- `createAccessWrapper` from `src/access/createAccessWrapper.ts`:
anonymous read requests go through the public-role permission check,
anonymous non-read requests are denied outright, authenticated requests
go through `checkPermission` with the user's role and id; a grant then
defers verbatim to the pre-existing access function when one exists. -/
def createAccessWrapper (collectionSlug : String) (operation : Operation)
    (originalAccess : Option (AccessArgs → AccessResult))
    (options : Option GatekeeperOptions)
    (lookupRole : String → Except Unit (Option RoleDoc))
    (args : AccessArgs) : AccessResult :=
  match args.user with
  | none =>
    -- Public user handling for read operations
    if operation == .read then
      if !(checkPermission lookupRole none
            (collectionSlug ++ "." ++ operation.asString) none options) then
        .bool false
      else
        match originalAccess with
        | some f => f args
        | none => .bool true
    -- No user for non-read operations = denied
    else .bool false
  | some u =>
    if !(checkPermission lookupRole u.role
          (collectionSlug ++ "." ++ operation.asString) (some u.id) options) then
      .bool false
    else
      match originalAccess with
      | some f => f args
      | none => .bool true

/-- Claim C9: the wrapper's decision behaviour: a denial short-circuits
to `false` for every pre-existing access function; a grant returns the
pre-existing function's result verbatim, or `true` when none exists;
and an anonymous non-read request is denied for every lookup
collaborator and option set (no permission check can influence it). -/
theorem claim9_access_wrapper (collectionSlug : String) :
    (∀ op orig opts lookupRole args, args.user = none → op ≠ .read →
      createAccessWrapper collectionSlug op orig opts lookupRole args =
        .bool false) ∧
    (∀ op orig opts lookupRole args u, args.user = some u →
      checkPermission lookupRole u.role
        (collectionSlug ++ "." ++ Operation.asString op) (some u.id) opts = false →
      createAccessWrapper collectionSlug op orig opts lookupRole args =
        .bool false) ∧
    (∀ op f opts lookupRole args u, args.user = some u →
      checkPermission lookupRole u.role
        (collectionSlug ++ "." ++ Operation.asString op) (some u.id) opts = true →
      createAccessWrapper collectionSlug op (some f) opts lookupRole args =
        f args) ∧
    (∀ op opts lookupRole args u, args.user = some u →
      checkPermission lookupRole u.role
        (collectionSlug ++ "." ++ Operation.asString op) (some u.id) opts = true →
      createAccessWrapper collectionSlug op none opts lookupRole args =
        .bool true) ∧
    (∀ orig opts lookupRole args, args.user = none →
      checkPermission lookupRole none (collectionSlug ++ "." ++ "read") none opts = false →
      createAccessWrapper collectionSlug .read orig opts lookupRole args =
        .bool false) ∧
    (∀ f opts lookupRole args, args.user = none →
      checkPermission lookupRole none (collectionSlug ++ "." ++ "read") none opts = true →
      createAccessWrapper collectionSlug .read (some f) opts lookupRole args =
        f args) ∧
    (∀ opts lookupRole args, args.user = none →
      checkPermission lookupRole none (collectionSlug ++ "." ++ "read") none opts = true →
      createAccessWrapper collectionSlug .read none opts lookupRole args =
        .bool true) := by
  refine ⟨fun op orig opts lookupRole args hu hop => ?_,
    fun op orig opts lookupRole args u hu hc => ?_,
    fun op f opts lookupRole args u hu hc => ?_,
    fun op opts lookupRole args u hu hc => ?_,
    fun orig opts lookupRole args hu hc => ?_,
    fun f opts lookupRole args hu hc => ?_,
    fun opts lookupRole args hu hc => ?_⟩
  · have hop' : (op == Operation.read) = false := beq_eq_false_iff_ne.mpr hop
    simp [createAccessWrapper, hu, hop']
  · simp [createAccessWrapper, hu, hc]
  · simp [createAccessWrapper, hu, hc]
  · simp [createAccessWrapper, hu, hc]
  · simp [createAccessWrapper, hu, Operation.asString, hc]
  · simp [createAccessWrapper, hu, Operation.asString, hc]
  · simp [createAccessWrapper, hu, Operation.asString, hc]

/-- Concrete instantiation of `claim9_access_wrapper`: an anonymous
update request is denied even under a lookup collaborator and an access
function that would both allow everything. -/
theorem claim9_witness :
    createAccessWrapper "posts" .update
      (some fun _ => .bool true) none
      (fun _ => .ok (some { permissions := some ["*"] })) {} =
      .bool false :=
  (claim9_access_wrapper "posts").1 .update
    (some fun _ => .bool true) none
    (fun _ => .ok (some { permissions := some ["*"] })) {}
    rfl (by decide)

/-! ### The role synchronization engine (`src/utils/syncRoles.ts`) -/

/-- Model of the 16-hex-character truncated sha256 digest of
`generateRoleHash`: the digest is a deterministic function of the JSON
document built from the sorted permission and visibility lists, so the
model keeps that sorted pre-image as the digest value.  (This only adds
injectivity, which no claim relies on.) -/
abbrev RoleHash := List String × List String

/-- Insertion into a `≤`-sorted list of strings. -/
def insertSorted (s : String) : List String → List String
  | [] => [s]
  | x :: xs => if s ≤ x then s :: x :: xs else x :: insertSorted s xs

/-- `Array.prototype.sort()` on strings (lexicographic code-unit
order). -/
def sortStrings (l : List String) : List String := l.foldr insertSorted []

/-- `generateRoleHash(permissions, visibleFor)` from
`src/utils/syncRoles.ts` lines 13–23:
`JSON.stringify({permissions: permissions.sort(), visibleFor: visibleFor ? visibleFor.sort() : []})`
hashed and truncated. -/
def generateRoleHash (permissions : List String)
    (visibleFor : Option (List String)) : RoleHash :=
  (sortStrings permissions, sortStrings (visibleFor.getD []))

/-- A persisted role record: the roles-collection document with the
fields the synchronization engine reads and writes. -/
structure RoleRecord where
  id : Nat
  name : String
  label : String := ""
  permissions : List String := []
  active : Bool := true
  protectedFlag : Option Bool := none
  visibleFor : Option (List String) := none
  description : Option String := none
  configHash : Option RoleHash := none
  configVersion : Option Nat := none
  systemManaged : Bool := false
deriving DecidableEq, Repr

/-- A desired system-role definition (`SystemRole` in `src/types.ts`). -/
structure SystemRole where
  name : String
  label : String := ""
  permissions : List String := []
  protectedFlag : Option Bool := none
  active : Option Bool := none
  description : Option String := none
  visibleFor : Option (List String) := none
deriving DecidableEq, Repr

/-- The persisted roles collection: record list plus the next fresh
primary key. -/
structure StoreState where
  roles : List RoleRecord := []
  nextId : Nat := 0
deriving DecidableEq, Repr

/-- `payload.find({ where: { name: { equals: name } }, limit: 1 })`. -/
def findByName (st : StoreState) (name : String) : Option RoleRecord :=
  st.roles.find? fun r => r.name == name

/-- `payload.findByID({ id })`. -/
def findByID (st : StoreState) (id : Nat) : Option RoleRecord :=
  st.roles.find? fun r => r.id == id

/-- The `data` of the `payload.update` call issued by the engine
(lines 102–112). -/
structure RoleUpdateData where
  permissions : List String
  protectedFlag : Option Bool
  visibleFor : Option (List String)
  configHash : RoleHash
  configVersion : Nat
deriving DecidableEq, Repr

def applyUpdate (r : RoleRecord) (d : RoleUpdateData) : RoleRecord :=
  { r with permissions := d.permissions, protectedFlag := d.protectedFlag,
           visibleFor := d.visibleFor, configHash := some d.configHash,
           configVersion := some d.configVersion }

/-- The record-level effect of `payload.update({ id, data })` on one
stored record. -/
def condUpdate (id : Nat) (d : RoleUpdateData) (x : RoleRecord) : RoleRecord :=
  if x.id == id then applyUpdate x d else x

/-- `payload.update({ id, data })`: rewrites the record carrying the
given id; `none` in the second component models the not-found throw. -/
def updateStore (st : StoreState) (id : Nat) (d : RoleUpdateData) :
    StoreState × Option RoleRecord :=
  match findByID st id with
  | none => (st, none)
  | some r =>
    (⟨st.roles.map (condUpdate id d), st.nextId⟩, some (applyUpdate r d))

/-- `SyncResults` from `src/types.ts`; a failure entry is
`(role, error)`. -/
structure SyncResults where
  created : List String := []
  updated : List String := []
  failed : List (String × String) := []
  skipped : List String := []
deriving DecidableEq, Repr

/-- The hash-mismatch update path of `syncSystemRoles` (lines 84–124):
`current` is the result of the pre-write `findByID` re-fetch, which may
observe a state already changed by a concurrent writer; `none` models a
thrown re-fetch.  A version mismatch records the
`Concurrent update detected` failure and issues no write; otherwise the
optimistic-locking update is issued. -/
def updateBranch (d : SystemRole) (role : RoleRecord)
    (current : Option RoleRecord) (st : StoreState) (res : SyncResults) :
    StoreState × SyncResults :=
  match current with
  | none =>
    (st, { res with failed := res.failed ++
      [(d.name, "Update failed (likely concurrent update): Not Found")] })
  | some currentRole =>
    if currentRole.configVersion ≠ role.configVersion then
      (st, { res with failed := res.failed ++
        [(d.name, "Concurrent update detected")] })
    else
      match updateStore st role.id
        { permissions := d.permissions,
          protectedFlag := d.protectedFlag.orElse fun _ => role.protectedFlag,
          visibleFor := d.visibleFor,
          configHash := generateRoleHash d.permissions d.visibleFor,
          configVersion := role.configVersion.getD 0 + 1 } with
      | (st2, some _) => (st2, { res with updated := res.updated ++ [d.name] })
      | (_, none) =>
        (st, { res with failed := res.failed ++
          [(d.name, "Update failed (likely concurrent update): Not Found")] })

/-- One iteration of the `for (const defaultRole of defaultRoles)` loop
(lines 40–133), parametrised by the `findByID` collaborator used for
the pre-write re-fetch (`refetch`), so that a writer acting between the
name lookup and the re-fetch is expressible.  In a quiescent run
`refetch` is `findByID` on the current state.  Creation cannot race in
the single-writer store model, so the create path always succeeds. -/
def processRole (refetch : Nat → Option RoleRecord) (st : StoreState)
    (res : SyncResults) (d : SystemRole) : StoreState × SyncResults :=
  let newHash := generateRoleHash d.permissions d.visibleFor
  match findByName st d.name with
  | none =>
    -- `{...defaultRole, active: d.active ?? true, configHash: newHash,
    --   configVersion: 1, systemManaged: true}`
    let newRole : RoleRecord :=
      { id := st.nextId, name := d.name, label := d.label,
        permissions := d.permissions, active := d.active.getD true,
        protectedFlag := d.protectedFlag, visibleFor := d.visibleFor,
        description := d.description, configHash := some newHash,
        configVersion := some 1, systemManaged := true }
    (⟨st.roles ++ [newRole], st.nextId + 1⟩,
     { res with created := res.created ++ [d.name] })
  | some role =>
    -- Skip non-system-managed roles (user-created)
    if !role.systemManaged then
      (st, { res with skipped := res.skipped ++ [d.name] })
    -- Check if update needed (hash mismatch)
    else if role.configHash ≠ some newHash then
      updateBranch d role (refetch role.id) st res
    else
      (st, res)

/-- The whole loop, quiescent: no concurrent writer, so the pre-write
re-fetch reads the engine's own current state.  The loop continues with
the remaining roles whatever one iteration produced. -/
def syncRun : StoreState → SyncResults → List SystemRole →
    StoreState × SyncResults
  | st, res, [] => (st, res)
  | st, res, d :: ds =>
    let out := processRole (findByID st) st res d
    syncRun out.1 out.2 ds

/-- `syncSystemRoles(payload, defaultRoles)` from
`src/utils/syncRoles.ts` lines 29–150, against the store model. -/
def syncSystemRoles (st : StoreState) (ds : List SystemRole) :
    StoreState × SyncResults :=
  syncRun st {} ds

/-- Claim C3: in the hash-mismatch update path, with the freshly
re-fetched record in hand: a `configVersion` differing from the version
captured by the name lookup records a `Concurrent update detected`
failure and issues no write; an unchanged version issues the update
carrying the desired permissions, the desired protected flag (falling
back to the stored one), the desired `visibleFor`, the new hash, and
the captured version incremented by one, and records the role under
`updated`. -/
theorem claim3_concurrent_update_detection
    (refetch : Nat → Option RoleRecord) (st : StoreState)
    (res : SyncResults) (d : SystemRole) (role currentRole : RoleRecord)
    (hfind : findByName st d.name = some role)
    (hsm : role.systemManaged = true)
    (hhash : role.configHash ≠ some (generateRoleHash d.permissions d.visibleFor))
    (hre : refetch role.id = some currentRole) :
    (currentRole.configVersion ≠ role.configVersion →
      processRole refetch st res d =
        (st, { res with failed := res.failed ++
          [(d.name, "Concurrent update detected")] })) ∧
    (currentRole.configVersion = role.configVersion →
      processRole refetch st res d =
        ((updateStore st role.id
            { permissions := d.permissions,
              protectedFlag := d.protectedFlag.orElse fun _ => role.protectedFlag,
              visibleFor := d.visibleFor,
              configHash := generateRoleHash d.permissions d.visibleFor,
              configVersion := role.configVersion.getD 0 + 1 }).1,
         { res with updated := res.updated ++ [d.name] })) := by
  constructor
  · intro hv
    simp [processRole, hfind, hsm, hhash, updateBranch, hre, hv]
  · intro hv
    obtain ⟨r2, hr2⟩ : ∃ r2, findByID st role.id = some r2 := by
      have hmem := List.mem_of_find?_eq_some hfind
      have hsome : (st.roles.find? fun r => r.id == role.id).isSome := by
        rw [List.find?_isSome]
        exact ⟨role, hmem, by simp⟩
      exact Option.isSome_iff_exists.mp hsome
    simp [processRole, hfind, hsm, hhash, updateBranch, hre, hv,
      updateStore, hr2]

/-- Fixture: a persisted system-managed role as captured by the name
lookup. -/
def editorRoleV1 : RoleRecord :=
  { id := 0, name := "editor", configHash := some (["old"], []),
    configVersion := some 1, systemManaged := true }

/-- Fixture: the same record after a concurrent writer bumped its
version. -/
def editorRoleV2 : RoleRecord :=
  { editorRoleV1 with configVersion := some 2 }

/-- Fixture: the store holding the captured record. -/
def editorStore : StoreState :=
  { roles := [editorRoleV1], nextId := 1 }

/-- Fixture: the desired definition for the same role name, with
changed permissions. -/
def editorDesired : SystemRole :=
  { name := "editor", permissions := ["posts.read"] }

/-- Concrete instantiation of `claim3_concurrent_update_detection`: a
re-fetch observing a bumped version yields the structured failure and
leaves the store untouched. -/
theorem claim3_witness :
    processRole (fun _ => some editorRoleV2) editorStore {} editorDesired =
      (editorStore, { failed := [("editor", "Concurrent update detected")] }) :=
  (claim3_concurrent_update_detection
    (fun _ => some editorRoleV2) editorStore {} editorDesired
    editorRoleV1 editorRoleV2
    (by decide) rfl (by decide) rfl).1 (by decide)

/-- Claim C6: a role found by name whose persisted record is not
system-managed is recorded under `skipped`, with no create, no update,
and an unchanged store — regardless of any hash comparison. -/
theorem claim6_skip_user_roles
    (refetch : Nat → Option RoleRecord) (st : StoreState)
    (res : SyncResults) (d : SystemRole) (role : RoleRecord)
    (hfind : findByName st d.name = some role)
    (hsm : role.systemManaged = false) :
    processRole refetch st res d =
      (st, { res with skipped := res.skipped ++ [d.name] }) := by
  simp [processRole, hfind, hsm]

/-- Fixture: the same persisted role, but user-forked
(`systemManaged: false`), with a hash that does not match the desired
definition. -/
def editorUserRole : RoleRecord :=
  { editorRoleV1 with systemManaged := false }

/-- Fixture: the store holding only the user-forked role. -/
def editorUserStore : StoreState :=
  { roles := [editorUserRole], nextId := 1 }

/-- Concrete instantiation of `claim6_skip_user_roles`: a user-forked
role with a stale hash is skipped and the store is unchanged. -/
theorem claim6_witness :
    processRole (fun _ => none) editorUserStore {} editorDesired =
      (editorUserStore, { skipped := ["editor"] }) :=
  claim6_skip_user_roles (fun _ => none) editorUserStore {} editorDesired
    editorUserRole (by decide) rfl

/-! ### Claim C7: idempotence of the synchronization run -/

/-- Well-formedness of the store model: primary keys are bounded by the
fresh-key counter and pairwise distinct, as the database guarantees for
primary keys. -/
def WFStore (st : StoreState) : Prop :=
  (∀ r ∈ st.roles, r.id < st.nextId) ∧
  st.roles.Pairwise fun a b => a.id ≠ b.id

/-- A desired role is settled in a store: its name lookup finds a
record that is either user-forked (never touched by the engine) or
already carries the desired content hash. -/
def Settled (d : SystemRole) (st : StoreState) : Prop :=
  ∃ r, findByName st d.name = some r ∧
    (r.systemManaged = false ∨
      r.configHash = some (generateRoleHash d.permissions d.visibleFor))

lemma condUpdate_id (i : Nat) (data : RoleUpdateData) (x : RoleRecord) :
    (condUpdate i data x).id = x.id := by
  unfold condUpdate; split <;> rfl

lemma condUpdate_name (i : Nat) (data : RoleUpdateData) (x : RoleRecord) :
    (condUpdate i data x).name = x.name := by
  unfold condUpdate; split <;> rfl

lemma condUpdate_of_ne {i : Nat} {x : RoleRecord} (data : RoleUpdateData)
    (h : x.id ≠ i) : condUpdate i data x = x := by
  simp [condUpdate, h]

lemma condUpdate_self {i : Nat} {x : RoleRecord} (data : RoleUpdateData)
    (h : x.id = i) : condUpdate i data x = applyUpdate x data := by
  simp [condUpdate, h]

/-- `find?` commutes with a map that does not change the predicate. -/
lemma find?_map_comm {f : RoleRecord → RoleRecord} {p : RoleRecord → Bool}
    (hp : ∀ x, p (f x) = p x) :
    ∀ l : List RoleRecord, (l.map f).find? p = (l.find? p).map f
  | [] => rfl
  | a :: l => by
    cases hpa : p a with
    | false =>
      rw [List.map_cons, List.find?_cons_of_neg _ (by rw [hp]; simp [hpa]),
        List.find?_cons_of_neg _ (by simp [hpa]), find?_map_comm hp l]
    | true =>
      rw [List.map_cons, List.find?_cons_of_pos _ (by rw [hp]; exact hpa),
        List.find?_cons_of_pos _ hpa]
      rfl

/-- With pairwise-distinct ids, looking a member record up by its own
id finds exactly that record. -/
lemma find?_id_unique {l : List RoleRecord}
    (hpw : l.Pairwise fun a b => a.id ≠ b.id) {r : RoleRecord}
    (hmem : r ∈ l) : (l.find? fun x => x.id == r.id) = some r := by
  induction l with
  | nil => cases hmem
  | cons a l ih =>
    rcases List.mem_cons.mp hmem with h | h
    · subst h
      exact List.find?_cons_of_pos _ (by simp)
    · have hne : a.id ≠ r.id := (List.pairwise_cons.mp hpw).1 r h
      rw [List.find?_cons_of_neg _ (by simp [hne])]
      exact ih (List.pairwise_cons.mp hpw).2 h

lemma name_of_findByName {st : StoreState} {n : String} {r : RoleRecord}
    (h : findByName st n = some r) : r.name = n := by
  have := List.find?_some h
  simpa using this

/-- In a quiescent, well-formed run, one loop iteration either creates
the missing role (stamped with the new hash), or leaves the store
unchanged with the desired role already settled, or rewrites exactly
the found record with an update carrying the new hash. -/
lemma processRole_quiescent_cases (st : StoreState) (res : SyncResults)
    (d : SystemRole) (hwf : WFStore st) :
    (∃ newRole : RoleRecord,
      findByName st d.name = none ∧
      newRole.name = d.name ∧ newRole.id = st.nextId ∧
      newRole.systemManaged = true ∧
      newRole.configHash = some (generateRoleHash d.permissions d.visibleFor) ∧
      (processRole (findByID st) st res d).1 =
        ⟨st.roles ++ [newRole], st.nextId + 1⟩) ∨
    ((processRole (findByID st) st res d).1 = st ∧ Settled d st) ∨
    (∃ role data,
      findByName st d.name = some role ∧
      data.configHash = generateRoleHash d.permissions d.visibleFor ∧
      (processRole (findByID st) st res d).1 =
        ⟨st.roles.map (condUpdate role.id data), st.nextId⟩) := by
  cases hfind : findByName st d.name with
  | none =>
    left
    refine ⟨{ id := st.nextId, name := d.name, label := d.label,
              permissions := d.permissions, active := d.active.getD true,
              protectedFlag := d.protectedFlag, visibleFor := d.visibleFor,
              description := d.description,
              configHash := some (generateRoleHash d.permissions d.visibleFor),
              configVersion := some 1, systemManaged := true },
      rfl, rfl, rfl, rfl, rfl, ?_⟩
    simp [processRole, hfind]
  | some role =>
    cases hsm : role.systemManaged with
    | false =>
      right; left
      exact ⟨by simp [processRole, hfind, hsm], role, hfind, .inl hsm⟩
    | true =>
      by_cases hh :
        role.configHash = some (generateRoleHash d.permissions d.visibleFor)
      · right; left
        exact ⟨by simp [processRole, hfind, hsm, hh], role, hfind, .inr hh⟩
      · right; right
        have hmem := List.mem_of_find?_eq_some hfind
        have hfid : findByID st role.id = some role :=
          find?_id_unique hwf.2 hmem
        refine ⟨role,
          { permissions := d.permissions,
            protectedFlag := d.protectedFlag.orElse fun _ => role.protectedFlag,
            visibleFor := d.visibleFor,
            configHash := generateRoleHash d.permissions d.visibleFor,
            configVersion := role.configVersion.getD 0 + 1 },
          rfl, rfl, ?_⟩
        simp [processRole, hfind, hsm, hh, updateBranch, hfid, updateStore]

/-- One quiescent iteration preserves store well-formedness. -/
lemma processRole_WF {st : StoreState} (res : SyncResults) (d : SystemRole)
    (hwf : WFStore st) : WFStore (processRole (findByID st) st res d).1 := by
  rcases processRole_quiescent_cases st res d hwf with
    ⟨nr, _, _, hid, _, _, hst⟩ | ⟨hst, _⟩ | ⟨role, data, _, _, hst⟩
  · rw [hst]
    constructor
    · intro r hr
      rcases List.mem_append.mp hr with h | h
      · exact Nat.lt_succ_of_lt (hwf.1 r h)
      · simp only [List.mem_singleton] at h
        subst h
        rw [hid]
        exact Nat.lt_succ_self _
    · rw [List.pairwise_append]
      refine ⟨hwf.2, by simp, ?_⟩
      intro a ha b hb
      simp only [List.mem_singleton] at hb
      subst hb
      rw [hid]
      exact Nat.ne_of_lt (hwf.1 a ha)
  · rw [hst]; exact hwf
  · rw [hst]
    constructor
    · intro r hr
      rcases List.mem_map.mp hr with ⟨x, hx, hfx⟩
      rw [← hfx, condUpdate_id]
      exact hwf.1 x hx
    · rw [List.pairwise_map]
      exact hwf.2.imp fun h => by simpa [condUpdate_id] using h

/-- After one quiescent iteration the processed role is settled. -/
lemma processRole_settles {st : StoreState} (res : SyncResults)
    (d : SystemRole) (hwf : WFStore st) :
    Settled d (processRole (findByID st) st res d).1 := by
  rcases processRole_quiescent_cases st res d hwf with
    ⟨nr, hfind, hname, _, _, hch, hst⟩ | ⟨hst, hset⟩ |
    ⟨role, data, hfind, hch, hst⟩
  · rw [hst]
    refine ⟨nr, ?_, .inr hch⟩
    show (st.roles ++ [nr]).find? (fun r => r.name == d.name) = some nr
    have hfind' : st.roles.find? (fun r => r.name == d.name) = none := hfind
    rw [List.find?_append, hfind', Option.none_or]
    exact List.find?_cons_of_pos _ (by simp [hname])
  · rw [hst]; exact hset
  · rw [hst]
    refine ⟨applyUpdate role data, ?_, .inr (by simp [applyUpdate, hch])⟩
    show (st.roles.map (condUpdate role.id data)).find?
        (fun r => r.name == d.name) = some (applyUpdate role data)
    rw [find?_map_comm (fun x => by rw [condUpdate_name]) st.roles]
    have hfind' : st.roles.find? (fun r => r.name == d.name) = some role := hfind
    rw [hfind']
    show some (condUpdate role.id data role) = _
    rw [condUpdate_self data rfl]

/-- One quiescent iteration for `d` keeps every role with a different
name settled. -/
lemma processRole_preserves_settled {st : StoreState} (res : SyncResults)
    (d e : SystemRole) (hwf : WFStore st) (hne : e.name ≠ d.name)
    (hset : Settled e st) :
    Settled e (processRole (findByID st) st res d).1 := by
  obtain ⟨re, hfe, hdisj⟩ := hset
  have hre_name : re.name = e.name := name_of_findByName hfe
  rcases processRole_quiescent_cases st res d hwf with
    ⟨nr, hfind, hname, _, _, _, hst⟩ | ⟨hst, _⟩ | ⟨role, data, hfind, _, hst⟩
  · rw [hst]
    refine ⟨re, ?_, hdisj⟩
    show (st.roles ++ [nr]).find? (fun r => r.name == e.name) = some re
    have hfe' : st.roles.find? (fun r => r.name == e.name) = some re := hfe
    rw [List.find?_append, hfe']
    rfl
  · rw [hst]; exact ⟨re, hfe, hdisj⟩
  · rw [hst]
    have hrole_name : role.name = d.name := name_of_findByName hfind
    have hne_rec : re ≠ role := by
      intro hcontra
      exact hne (by rw [← hre_name, hcontra, hrole_name])
    have hid_ne : re.id ≠ role.id :=
      List.Pairwise.forall (fun a b h => Ne.symm h) hwf.2
        (List.mem_of_find?_eq_some hfe)
        (List.mem_of_find?_eq_some hfind) hne_rec
    refine ⟨re, ?_, hdisj⟩
    show (st.roles.map (condUpdate role.id data)).find?
        (fun r => r.name == e.name) = some re
    rw [find?_map_comm (fun x => by rw [condUpdate_name]) st.roles]
    have hfe' : st.roles.find? (fun r => r.name == e.name) = some re := hfe
    rw [hfe']
    show some (condUpdate role.id data re) = some re
    rw [condUpdate_of_ne data hid_ne]

/-- An iteration on a settled role is a pure no-op on the store and
adds nothing to `created` or `updated` (at most a `skipped` entry). -/
lemma processRole_noop (refetch : Nat → Option RoleRecord)
    (res : SyncResults) {st : StoreState} {d : SystemRole}
    (h : Settled d st) :
    processRole refetch st res d = (st, res) ∨
    processRole refetch st res d =
      (st, { res with skipped := res.skipped ++ [d.name] }) := by
  obtain ⟨r, hf, hd⟩ := h
  rcases hd with hsm | hh
  · right; simp [processRole, hf, hsm]
  · cases hsm : r.systemManaged
    · right; simp [processRole, hf, hsm]
    · left; simp [processRole, hf, hsm, hh]

/-- A whole run over settled roles leaves the store unchanged and its
results carry over the incoming `created` and `updated` lists. -/
lemma syncRun_noop (ds : List SystemRole) :
    ∀ st res, (∀ d ∈ ds, Settled d st) →
      (syncRun st res ds).1 = st ∧
      (syncRun st res ds).2.created = res.created ∧
      (syncRun st res ds).2.updated = res.updated := by
  induction ds with
  | nil => intro st res _; exact ⟨rfl, rfl, rfl⟩
  | cons d ds ih =>
    intro st res h
    have hrest : ∀ e ∈ ds, Settled e st :=
      fun e he => h e (List.mem_cons_of_mem d he)
    rcases processRole_noop (findByID st) res (h d (List.mem_cons_self d ds))
      with hp | hp
    · simp only [syncRun, hp]
      exact ih st res hrest
    · simp only [syncRun, hp]
      exact ih st { res with skipped := res.skipped ++ [d.name] } hrest

/-- A run keeps a settled role with a name foreign to the run
settled. -/
lemma syncRun_keeps_settled (ds : List SystemRole) :
    ∀ st res e, WFStore st → Settled e st →
      (∀ d ∈ ds, e.name ≠ d.name) →
      Settled e (syncRun st res ds).1 := by
  induction ds with
  | nil => intro st res e _ hs _; exact hs
  | cons d ds ih =>
    intro st res e hwf hs hne
    simp only [syncRun]
    exact ih _ _ e (processRole_WF res d hwf)
      (processRole_preserves_settled res d e hwf
        (hne d (List.mem_cons_self d ds)) hs)
      fun d' hd' => hne d' (List.mem_cons_of_mem d hd')

/-- A quiescent run over pairwise-distinct names leaves every processed
role settled in a well-formed store. -/
lemma syncRun_establishes (ds : List SystemRole) :
    ∀ st res, WFStore st → ds.Pairwise (fun a b => a.name ≠ b.name) →
      WFStore (syncRun st res ds).1 ∧
      ∀ d ∈ ds, Settled d (syncRun st res ds).1 := by
  induction ds with
  | nil => intro st res hwf _; exact ⟨hwf, by simp⟩
  | cons d ds ih =>
    intro st res hwf hpw
    obtain ⟨hhead, htail⟩ := List.pairwise_cons.mp hpw
    have hwf1 := processRole_WF res d hwf
    have hset1 := processRole_settles res d hwf
    simp only [syncRun]
    obtain ⟨hwfN, hsetN⟩ := ih _ _ hwf1 htail
    refine ⟨hwfN, fun e he => ?_⟩
    rcases List.mem_cons.mp he with he | he
    · subst he
      exact syncRun_keeps_settled ds _ _ e hwf1 hset1 hhead
    · exact hsetN e he

/-- Fixture: a desired-role list with a duplicated name and differing
permissions. -/
def dupNameRoles : List SystemRole :=
  [{ name := "A", permissions := ["a"] }, { name := "A", permissions := ["b"] }]

/-- Claim C7, counterexample: with two desired roles sharing the name
`A` but differing in permissions, the first run creates the role and
immediately updates it to the second definition, so the second run
finds a hash matching neither definition in turn and updates twice:
`updated` is not empty on the second run, refuting the claimed
idempotence for arbitrary desired-role lists. -/
theorem claim7_counterexample :
    ¬ ((syncSystemRoles (syncSystemRoles {} dupNameRoles).1
          dupNameRoles).2.created = [] ∧
       (syncSystemRoles (syncSystemRoles {} dupNameRoles).1
          dupNameRoles).2.updated = []) := by
  decide

/-- Claim C7 (amended): for a desired-role list with pairwise-distinct
names and a store with distinct primary keys, running `syncSystemRoles`
twice in a row with no external mutation in between yields empty
`created` and `updated` lists on the second run: the deterministic
hash stored by every create or update of the first run equals the hash
recomputed on the second run, making every entry a no-op. -/
theorem claim7_idempotent_for_distinct_names (st : StoreState)
    (ds : List SystemRole) (hwf : WFStore st)
    (hnames : ds.Pairwise fun a b => a.name ≠ b.name) :
    (syncSystemRoles (syncSystemRoles st ds).1 ds).2.created = [] ∧
    (syncSystemRoles (syncSystemRoles st ds).1 ds).2.updated = [] := by
  obtain ⟨hwf1, hset⟩ := syncRun_establishes ds st {} hwf hnames
  obtain ⟨_, hc, hu⟩ := syncRun_noop ds (syncRun st {} ds).1 {} hset
  exact ⟨hc, hu⟩

/-- Fixture: two desired roles with distinct names. -/
def distinctNameRoles : List SystemRole :=
  [{ name := "admin", permissions := ["*"] },
   { name := "viewer", permissions := ["posts.read"] }]

/-- Concrete instantiation of
`claim7_idempotent_for_distinct_names` on an empty store. -/
theorem claim7_witness :
    (syncSystemRoles (syncSystemRoles {} distinctNameRoles).1
        distinctNameRoles).2.created = [] ∧
    (syncSystemRoles (syncSystemRoles {} distinctNameRoles).1
        distinctNameRoles).2.updated = [] :=
  claim7_idempotent_for_distinct_names {} distinctNameRoles
    ⟨by simp, List.Pairwise.nil⟩ (by decide)

/-! ### The roles-collection beforeChange hook (`createRolesCollection`) -/

/-- The create/update payload (`data`) of the roles beforeChange hook:
`Option` fields model key presence (`Object.keys(data)`). -/
structure RoleData where
  name : Option String := none
  label : Option String := none
  permissions : Option (List String) := none
  active : Option Bool := none
  protectedFlag : Option Bool := none
  visibleFor : Option (List String) := none
  description : Option String := none
  configHash : Option RoleHash := none
  configVersion : Option Nat := none
deriving DecidableEq, Repr

/-- `Object.keys(data)`; only membership is consulted downstream. -/
def RoleData.keys (d : RoleData) : List String :=
  (if d.name.isSome then ["name"] else []) ++
  (if d.label.isSome then ["label"] else []) ++
  (if d.permissions.isSome then ["permissions"] else []) ++
  (if d.active.isSome then ["active"] else []) ++
  (if d.protectedFlag.isSome then ["protected"] else []) ++
  (if d.visibleFor.isSome then ["visibleFor"] else []) ++
  (if d.description.isSome then ["description"] else []) ++
  (if d.configHash.isSome then ["configHash"] else []) ++
  (if d.configVersion.isSome then ["configVersion"] else [])

/-- The stored document being changed (`originalDoc`), with the fields
the hook consults. -/
structure OrigDoc where
  id : JsId
  name : String := ""
  protectedFlag : Option Bool := none
deriving DecidableEq, Repr

/-- The authenticated hook actor (`req.user`). -/
structure HookUser where
  id : JsId
  role : Option JsRoleRef := none
deriving DecidableEq, Repr

/-- The hook operation. -/
inductive HookOp where
  | create
  | update
deriving DecidableEq, Repr

/-- A thrown `ValidationError`, as its `(path, message)` entries. -/
inductive HookError where
  | validation (errors : List (String × String))
deriving DecidableEq, Repr

/-- System fields filtered out of the protected-role field check. -/
def systemFields : List String :=
  ["id", "createdAt", "updatedAt", "_status", "configHash",
   "configVersion", "active", "name"]

/-- The only fields a non-super-admin may touch on a protected role. -/
def allowedFields : List String := ["description", "permissions"]

def protectedNameMsg : String :=
  "The name of a protected role cannot be changed."

def lockoutMsg : String :=
  "You cannot remove super admin permission from your own role. This would lock you out of the system."

def protectedFieldMsg (field : String) : String :=
  "Protected roles cannot have their \"" ++ field ++
    "\" field modified. Only description and permissions can be updated."

/-- `originalDoc?.protected` truthiness. -/
def protectedOriginal (originalDoc : Option OrigDoc) : Bool :=
  match originalDoc with
  | some o => o.protectedFlag == some true
  | none => false

/-- `data.name && data.name !== originalDoc.name` (the empty string is
falsy).  Reached only under `originalDoc?.protected`, so the absent
case is immaterial. -/
def nameChangeAttempt (data : RoleData) (originalDoc : Option OrigDoc) : Bool :=
  match data.name, originalDoc with
  | some n, some o => n != "" && n != o.name
  | _, _ => false

/-- `userRoleId === originalDoc?.id` where `userRoleId` is
`user.role && typeof user.role === 'object' && 'id' in user.role ? user.role.id : user.role`:
strict equality, so an id matches only an id of the same primitive type,
an id-less role object never matches, and `undefined` matches only a
missing `originalDoc` (the hook reaches this only on updates, where
`originalDoc` is present). -/
def isUpdatingOwnRole (role : Option JsRoleRef)
    (originalDoc : Option OrigDoc) : Bool :=
  match role with
  | some (.obj r) =>
    match r.id, originalDoc with
    | some i, some o => JsId.strictEq i o.id
    | _, _ => false
  | some (.num n) =>
    match originalDoc with
    | some o => JsId.strictEq (.num n) o.id
    | none => false
  | some (.str s) =>
    match originalDoc with
    | some o => JsId.strictEq (.str s) o.id
    | none => false
  | none => originalDoc.isNone

/-- The roles-collection `beforeChange` hook from
`createRolesCollection` (the skip shortcut, the super-admin
determination via `checkPermission`, the protected-role rename guard,
the self-lockout guard, the super-admin path forcing protected roles
active, and the non-super-admin restrictions on protected roles). -/
def rolesBeforeChange (lookupRole : String → Except Unit (Option RoleDoc))
    (options : GatekeeperOptions) (operation : HookOp) (data : RoleData)
    (originalDoc : Option OrigDoc) (user : Option HookUser) :
    Except HookError RoleData :=
  -- Skip permission checks if configured
  if options.skipPermissionChecks then .ok data
  else
    -- Check if current user is super admin
    let isSuperAdmin :=
      match user with
      | some u => checkPermission lookupRole u.role "*" (some u.id) none
      | none => false
    -- Prevent name changes for protected roles (applies to everyone)
    if protectedOriginal originalDoc && operation == HookOp.update &&
        nameChangeAttempt data originalDoc then
      .error (.validation [("name", protectedNameMsg)])
    -- Prevent a super admin from removing `*` from THEIR OWN role
    else if (match user with
             | some u =>
               isSuperAdmin && operation == HookOp.update &&
               isUpdatingOwnRole u.role originalDoc &&
               (match data.permissions with
                | some ps => !ps.contains "*"
                | none => false)
             | none => false) then
      .error (.validation [("permissions", lockoutMsg)])
    -- Super admins may update any protected role (after the checks above)
    else if isSuperAdmin then
      .ok (if protectedOriginal originalDoc && operation == HookOp.update then
             { data with active := some true }
           else data)
    -- Non-super admins: additional restrictions for protected roles
    else if protectedOriginal originalDoc && operation == HookOp.update then
      let dataFields := data.keys.filter fun f => !systemFields.contains f
      let disallowed := dataFields.filter fun f => !allowedFields.contains f
      if disallowed ≠ [] then
        .error (.validation (disallowed.map fun f => (f, protectedFieldMsg f)))
      else .ok { data with active := some true }
    else .ok data

/-- A populated role object carrying the `*` grant and not explicitly
inactive makes its holder a super admin in the eyes of the hook. -/
lemma checkPermission_star_obj (lookupRole : String → Except Unit (Option RoleDoc))
    (uid : JsId) (r : RoleDoc)
    (hstar : "*" ∈ r.permissions.getD [])
    (hactive : r.active ≠ some false) :
    checkPermission lookupRole (some (.obj r)) "*" (some uid) none = true := by
  have hact : (r.active == some false) = false := beq_eq_false_iff_ne.mpr hactive
  have hperm : hasPermission (some (r.permissions.getD [])) "*" = true := by
    cases hl : r.permissions.getD [] with
    | nil => rw [hl] at hstar; cases hstar
    | cons a l =>
      rw [hl] at hstar
      simp [hasPermission, hstar]
  cases hfu : isFirstUser (some uid) with
  | true => simp [checkPermission, hfu]
  | false => simp [checkPermission, hfu, publicCaller_obj, checkRoleDoc, hact, hperm]

/-- Claim C8: on an update validated for a super admin (an actor whose
populated role object grants `*`), submitting a permissions list
without `*` is rejected with the dedicated self-lockout validation
error exactly when the edited document's id strictly equals the actor's
role id; editing a different role the same way is accepted.  The
comparison is on role identifiers, not names. -/
theorem claim8_self_lockout
    (lookupRole : String → Except Unit (Option RoleDoc))
    (o : OrigDoc) (data : RoleData) (u : HookUser) (r : RoleDoc)
    (rid : JsId) (ps : List String)
    (hrole : u.role = some (.obj r))
    (hid : r.id = some rid)
    (hstar : "*" ∈ r.permissions.getD [])
    (hactive : r.active ≠ some false)
    (hname : data.name = none)
    (hperms : data.permissions = some ps)
    (hnostar : "*" ∉ ps) :
    (JsId.strictEq rid o.id = true →
      rolesBeforeChange lookupRole {} .update data (some o) (some u) =
        .error (.validation [("permissions", lockoutMsg)])) ∧
    (JsId.strictEq rid o.id = false →
      ∃ d2, rolesBeforeChange lookupRole {} .update data (some o) (some u) =
        .ok d2) := by
  have hsa : checkPermission lookupRole u.role "*" (some u.id) none = true := by
    rw [hrole]; exact checkPermission_star_obj lookupRole u.id r hstar hactive
  have hnc : nameChangeAttempt data (some o) = false := by
    simp [nameChangeAttempt, hname]
  constructor
  · intro hown
    have how : isUpdatingOwnRole u.role (some o) = true := by
      simp [isUpdatingOwnRole, hrole, hid, hown]
    simp [rolesBeforeChange, hsa, hnc, how, hperms, hnostar]
  · intro hown
    have how : isUpdatingOwnRole u.role (some o) = false := by
      simp [isUpdatingOwnRole, hrole, hid, hown]
    by_cases hp : protectedOriginal (some o) = true
    · exact ⟨{ data with active := some true },
        by simp [rolesBeforeChange, hsa, hnc, how, hp]⟩
    · exact ⟨data, by simp [rolesBeforeChange, hsa, hnc, how, hp]⟩

/-- Concrete instantiation of `claim8_self_lockout`: a super admin
stripping `*` from their own role is rejected with the lockout
error. -/
theorem claim8_witness :
    rolesBeforeChange (fun _ => .error ()) {} .update
      { permissions := some ["posts.read"] }
      (some { id := .num 7, name := "super_admin",
              protectedFlag := some true })
      (some { id := .num 2,
              role := some (.obj { id := some (.num 7),
                                   active := some true,
                                   permissions := some ["*"] }) }) =
      .error (.validation [("permissions", lockoutMsg)]) :=
  (claim8_self_lockout (fun _ => .error ())
    { id := .num 7, name := "super_admin", protectedFlag := some true }
    { permissions := some ["posts.read"] }
    { id := .num 2,
      role := some (.obj { id := some (.num 7), active := some true,
                           permissions := some ["*"] }) }
    { id := some (.num 7), active := some true, permissions := some ["*"] }
    (.num 7) ["posts.read"]
    rfl rfl (by decide) (by decide) rfl rfl (by decide)).1 (by decide)

/-! ### Claim C10: protected roles stay active through accepted updates -/

/-- Fixture: an update payload trying to deactivate a role. -/
def deactivateData : RoleData := { active := some false }

/-- Fixture: a protected stored role. -/
def protectedOrig : OrigDoc :=
  { id := .num 7, name := "super_admin", protectedFlag := some true }

/-- Claim C10, counterexample: with `skipPermissionChecks` configured,
the hook returns the payload untouched, so an update on a protected
role is accepted with `active = false` — the claimed invariant does not
hold for every accepted update. -/
theorem claim10_counterexample :
    rolesBeforeChange (fun _ => .error ())
      { skipPermissionChecks := true } .update deactivateData
      (some protectedOrig) none = .ok deactivateData ∧
    deactivateData.active = some false ∧
    protectedOrig.protectedFlag = some true :=
  ⟨rfl, rfl, rfl⟩

/-- Claim C10 (amended): when permission checks are not skipped, every
accepted update on a role whose stored record is protected yields a
payload with `active = true`: both the super-admin path and the
non-super-admin path overwrite the submitted value. -/
theorem claim10_protected_stays_active
    (lookupRole : String → Except Unit (Option RoleDoc))
    (options : GatekeeperOptions) (data d2 : RoleData) (o : OrigDoc)
    (user : Option HookUser)
    (hskip : options.skipPermissionChecks = false)
    (hprot : o.protectedFlag = some true)
    (hok : rolesBeforeChange lookupRole options .update data (some o) user =
      .ok d2) :
    d2.active = some true := by
  have hpo : protectedOriginal (some o) = true := by
    simp [protectedOriginal, hprot]
  simp only [rolesBeforeChange, hskip, Bool.false_eq_true, if_false, hpo,
    Bool.true_and] at hok
  split at hok
  · exact absurd hok (by simp)
  · split at hok
    · exact absurd hok (by simp)
    · split at hok
      · simp only [Except.ok.injEq] at hok
        subst hok
        rfl
      · split at hok
        · split at hok
          · exact absurd hok (by simp)
          · simp only [Except.ok.injEq] at hok
            subst hok
            rfl
        · next hcond =>
          exact absurd (by decide : (HookOp.update == HookOp.update) = true)
            hcond

/-- Concrete instantiation of `claim10_protected_stays_active`: the
non-super-admin path rewrites a deactivation attempt to
`active = true`. -/
theorem claim10_witness :
    ({ active := some true } : RoleData).active = some true :=
  claim10_protected_stays_active (fun _ => .error ()) {} deactivateData
    { active := some true } protectedOrig none rfl rfl rfl

end Gatekeeper
